import Mathlib

set_option linter.unusedVariables false

/-! Shallow embedding of the quantity-aware plotting core of EasyGUIng
(`src/EasyGUIng.py`: `PageWidget.checkInputs`, `PageWidget.calc_series`,
`ModelPlot.plot`, `ModelPlot.plot_pre`, `ModelPlot.CalcWorker.run`,
`ModelPlot.plot_post`, `ModelPlot.markExtremum`, `ModelPlot.markCalculation`)
and of the piecewise helper (`src/model/f_helper.py`: `piecewise`).

Pint quantities are modelled as rational magnitudes tagged with a unit; a
unit is a dimension name together with the scale factor to the base unit of
that dimension (a base unit has scale 1).  Pint's value equality `==`
compares quantities after conversion, i.e. via dimension and base-unit
magnitude.  Python dicts that are built in a fixed key order (the model's
input order) are modelled as association lists in that order. -/

/-- A physical unit: dimension name and scale factor to the base unit. -/
structure QUnit where
  dim : String
  scale : ℚ
deriving DecidableEq

/-- A scalar pint quantity: magnitude and unit. -/
structure Qty where
  mag : ℚ
  unit : QUnit
deriving DecidableEq

/-- An array-valued pint quantity (numpy array carrying one unit). -/
structure QArr where
  mags : List ℚ
  unit : QUnit
deriving DecidableEq

/-- Placeholder quantity used as the (never observed) default of safe list
indexing; Python raises IndexError instead, which the embedding surfaces
separately wherever a claim depends on it. -/
def qdef : Qty := ⟨0, ⟨"", 1⟩⟩

/-- pint `Quantity.to_base_units` on scalars. -/
def to_base_units (q : Qty) : Qty := ⟨q.mag * q.unit.scale, ⟨q.unit.dim, 1⟩⟩

/-- pint `Quantity.to_base_units` on arrays. -/
def QArr.to_base_units (a : QArr) : QArr :=
  ⟨a.mags.map (fun m => m * a.unit.scale), ⟨a.unit.dim, 1⟩⟩

/-- pint value equality `==` of two scalar quantities: equal dimension and
equal magnitude after conversion to base units. -/
def qtyEq (a b : Qty) : Bool :=
  a.unit.dim == b.unit.dim && decide (a.mag * a.unit.scale = b.mag * b.unit.scale)

/-! ## `src/model/f_helper.py` -/

/-- numpy `np.resize(xs, n)`: cyclically repeat `xs` to length `n`
(an empty `xs` is zero-filled, as numpy does). -/
def np_resize (xs : List ℚ) (n : Nat) : List ℚ :=
  (List.range n).map (fun i => xs.getD (i % xs.length) 0)

/-- `f_helper.piecewise(function, var, keys)`: make the variables named by
`keys` iterable, broadcast them by cyclic repetition (`np.resize`) to the
maximal length among them, and invoke `function(var, *values)` once per
index, collecting the scalar results (`np.append`). -/
def piecewise (f : List (String × List ℚ) → List ℚ → ℚ)
    (var : List (String × List ℚ)) (keys : List String) : List ℚ :=
  let ndvars := keys.map (fun k => (var.lookup k).getD [])
  let length := (ndvars.map List.length).foldl Nat.max 0
  let resized := ndvars.map (fun v => np_resize v length)
  (List.range length).map (fun i => f var (resized.map (fun v => v.getD i 0)))

/-! ## `ModelPlot.PlotData` and `ModelPlot.plot_pre` -/

/-- `ModelPlot.PlotData`: one cache slot per plotted curve.  `result` starts
as `None` and is filled by the calculation worker. -/
structure PlotData where
  x : QArr
  qty : List (String × Qty)
  opt : List (String × String)
  result : Option QArr
deriving DecidableEq

/-- The inputs `plot_pre` reads from its `PageWidget` parent:
`plotInputQtys` (per input key the list of quantities parsed from the
semicolon-separated field, in input order), `inputRelevance.get(k, True)`,
`plotX`, `plotNumOfPts.value()` and `option`. -/
structure PreInput where
  inputs : List (String × List Qty)
  relevance : String → Bool
  plotX : String
  numOfPts : Nat
  opt : List (String × String)

/-- The inputs that survive the `inputRelevance` guard (`continue`). -/
def relevantInputs (inp : PreInput) : List (String × List Qty) :=
  inp.inputs.filter (fun p => inp.relevance p.1)

/-- pint/numpy `np.linspace(a, b, num)`: `num` points from `a` to `b`, with
`b` converted to the units of `a` (a dimension mismatch raises). -/
def linspace (a b : Qty) (num : Nat) : Except String QArr :=
  if a.unit.dim = b.unit.dim then
    .ok ⟨(List.range num).map
          (fun i => a.mag + (b.mag * b.unit.scale / a.unit.scale - a.mag)
            * (i : ℚ) / ((num : ℚ) - 1)),
         a.unit⟩
  else .error "DimensionalityError"

/-- The sample array `x = np.linspace(q_[0], q_[-1], plotNumOfPts)` for the
input selected by `plotX` (an absent or empty `plotX` entry raises). -/
def preX (inp : PreInput) : Except String QArr :=
  match (relevantInputs inp).lookup inp.plotX with
  | none => .error "NameError: name x is not defined"
  | some [] => .error "IndexError: list index out of range"
  | some (q :: qs) => linspace q ((q :: qs).getLastD q) inp.numOfPts

/-- `len(set(q_))`: the number of distinct values of a field under pint
value equality (pint hashes quantities compatibly with `==`). -/
def countDistinct (l : List Qty) : Nat :=
  (l.foldl (fun acc q => if acc.any (fun p => qtyEq p q) then acc else acc ++ [q]) []).length

/-- The `family` dict built by `plot_pre`: every relevant non-axis input,
reduced to `[q_[0]]` when it holds a single distinct value. -/
def preFamily (inp : PreInput) : List (String × List Qty) :=
  (relevantInputs inp).filterMap (fun p =>
    if p.1 = inp.plotX then none
    else if countDistinct p.2 = 1 then some (p.1, [p.2.headD qdef])
    else some p)

/-- `self.legendKeys`: the relevant non-axis inputs holding more than one
distinct value, in input order. -/
def preLegendKeys (inp : PreInput) : List String :=
  ((relevantInputs inp).filter (fun p =>
    p.1 ≠ inp.plotX ∧ countDistinct p.2 ≠ 1)).map (fun p => p.1)

/-- `numOfPlots = 1; if family: numOfPlots = min([len(v_) for v_ in
family.values() if len(v_) > 1])` — Python's `min` raises `ValueError`
on an empty sequence. -/
def preCount (fam : List (String × List Qty)) : Except String Nat :=
  if fam.isEmpty then .ok 1
  else
    match (fam.map (fun p => p.2.length)).filter (fun l => 1 < l) with
    | [] => .error "ValueError: min() arg is an empty sequence"
    | l :: ls => .ok (ls.foldl Nat.min l)

/-- The per-curve parameter combination `qty` assembled for slot `i`:
`family[f_][0]` for a length-one family, `family[f_][i]` otherwise. -/
def qtyAt (fam : List (String × List Qty)) (i : Nat) : List (String × Qty) :=
  fam.map (fun p => (p.1, if p.2.length = 1 then p.2.headD qdef else p.2.getD i qdef))

/-- Value-wise equality check of a cache slot against the candidate triple:
`same = True if p_ else False`, then `np.equal(p_.opt, opt).all()`,
`np.equal(p_.qty, qty).all()` (dict equality, pint `==` on values) and
`len(p_.x) == len(x)` with `np.equal(p_.x, x).all()`. -/
def qtyPairsEq : List (String × Qty) → List (String × Qty) → Bool
  | [], [] => true
  | (k₁, q₁) :: t₁, (k₂, q₂) :: t₂ => k₁ == k₂ && qtyEq q₁ q₂ && qtyPairsEq t₁ t₂
  | _, _ => false

/-- Elementwise pint `==` of two magnitude lists carrying units `u` and `v`. -/
def magsEq (u v : QUnit) : List ℚ → List ℚ → Bool
  | [], [] => true
  | m :: ms, k :: ks => qtyEq ⟨m, u⟩ ⟨k, v⟩ && magsEq u v ms ks
  | _, _ => false

/-- Elementwise pint `==` of two quantity arrays. -/
def qarrEq (a b : QArr) : Bool := magsEq a.unit b.unit a.mags b.mags

/-- The `same` check of `plot_pre` for one slot. -/
def tripleSame (p : Option PlotData) (x : QArr) (qty : List (String × Qty))
    (opt : List (String × String)) : Bool :=
  match p with
  | none => false
  | some p =>
      decide (p.opt = opt) && qtyPairsEq p.qty qty
        && (p.x.mags.length == x.mags.length && qarrEq p.x x)

/-- `self.plots = self.plots[:numOfPlots]` or
`self.plots.extend([None] * (numOfPlots - len(self.plots)))`. -/
def resizeSlots (plots : List (Option PlotData)) (n : Nat) : List (Option PlotData) :=
  if n ≤ plots.length then plots.take n
  else plots ++ List.replicate (n - plots.length) none

/-- The body of the per-slot update loop: keep the slot when `same`, else
replace it with a fresh `PlotData` whose `result` is `None`. -/
def slotStep (x : QArr) (fam : List (String × List Qty))
    (opt : List (String × String)) (i : Nat) (p : Option PlotData) : Option PlotData :=
  if tripleSame p x (qtyAt fam i) opt then p else some ⟨x, qtyAt fam i, opt, none⟩

/-- `for n_, p_ in enumerate(self.plots): …`, starting at index `j`. -/
def updateSlots (x : QArr) (fam : List (String × List Qty))
    (opt : List (String × String)) : Nat → List (Option PlotData) → List (Option PlotData)
  | _, [] => []
  | j, p :: ps => slotStep x fam opt j p :: updateSlots x fam opt (j + 1) ps

/-- `ModelPlot.plot_pre`: compute the sample array and the curve family,
resize the slot list to the curve count, and refresh every slot whose
(sample array, parameters, options) triple changed.  Accessing an index of
an empty family value raises `IndexError` in Python. -/
def plot_pre (inp : PreInput) (plots : List (Option PlotData)) :
    Except String (List (Option PlotData)) := do
  let x ← preX inp
  let n ← preCount (preFamily inp)
  if (preFamily inp).all (fun p => !p.2.isEmpty) then
    .ok (updateSlots x (preFamily inp) inp.opt 0 (resizeSlots plots n))
  else .error "IndexError: list index out of range"

/-! ## `ModelPlot.CalcWorker.run` -/

/-- A model evaluation step as seen by the worker: `calc_series` applied to
a slot's sample array, parameter combination and option snapshot.  A raised
exception is an `Except.error`. -/
def CalcModel : Type :=
  QArr → List (String × Qty) → List (String × String) → Except String QArr

/-- A model function that never raises. -/
def totalModel (f : QArr → List (String × Qty) → List (String × String) → QArr) :
    CalcModel := fun x q o => .ok (f x q o)

/-- `CalcWorker.run`: `for p_ in self.ref.plots: if p_.result is None:
p_.result = … calc_series(p_.x, p_.qty, p_.opt)`.  Returns the slot list
after the run, the number of model invocations, and the escaped exception,
if any (in which case the remaining slots are untouched and the
`completed` signal is never emitted).  A `None` slot raises
`AttributeError`. -/
def workerRun (model : CalcModel) :
    List (Option PlotData) → List (Option PlotData) × Nat × Option String
  | [] => ([], 0, none)
  | none :: ps => (none :: ps, 0, some "AttributeError")
  | some p :: ps =>
      match p.result with
      | some _ =>
          match workerRun model ps with
          | (ps', c, e) => (some p :: ps', c, e)
      | none =>
          match model p.x p.qty p.opt with
          | .error e => (some p :: ps, 1, some e)
          | .ok r =>
              match workerRun model ps with
              | (ps', c, e) => (some { p with result := some r } :: ps', c + 1, e)

/-- The effect of a completed error-free worker run on one slot. -/
def fillSlot (f : QArr → List (String × Qty) → List (String × String) → QArr) :
    Option PlotData → Option PlotData
  | none => none
  | some p =>
      match p.result with
      | some _ => some p
      | none => some { p with result := some (f p.x p.qty p.opt) }

/-- The effect of a completed error-free worker run on the slot list. -/
def fillAll (f : QArr → List (String × Qty) → List (String × String) → QArr)
    (ps : List (Option PlotData)) : List (Option PlotData) :=
  ps.map (fillSlot f)

/-- Slots the worker skips: those whose `result` is already present. -/
def slotFilled : Option PlotData → Bool
  | none => false
  | some p => p.result.isSome

/-- Slots the worker has to compute: a `None` result (or a `None` slot). -/
def slotUnfilled : Option PlotData → Bool
  | none => true
  | some p => p.result.isNone

/-! ## `ModelPlot.plot_post`, `markExtremum`, `markCalculation` -/

/-- A Qt check state (`QCheckBox` with `tristate=True`); `halfChecked` is
Qt's partially-checked state. -/
inductive CheckState where
  | unchecked
  | halfChecked
  | checked
deriving DecidableEq

/-- A matplotlib line on the axes, reduced to the attributes the engine
reads back: sample data (magnitudes), the custom `gid`, the line style, the
marker and the legend label. -/
structure Line where
  xdata : List ℚ
  ydata : List ℚ
  gid : Option String
  linestyle : String
  marker : String
  label : String
deriving DecidableEq

/-- Rendering of one quantity for the legend (`locale.localize(str(v_))`);
the exact text is irrelevant to the engine. -/
def qtyText (q : Qty) : String := toString q.mag ++ " " ++ q.unit.dim

/-- `ModelPlot.legendText`: join the string forms of the inputs that are
members of the active curve family. -/
def legendText (legendKeys : List String) (qty : List (String × Qty)) : String :=
  String.intercalate ", "
    ((qty.filter (fun p => legendKeys.contains p.1)).map (fun p => qtyText p.2))

/-- `self.ax.plot(p_.x, p_.result, '-', label=…)` for one slot: matplotlib
raises `ValueError` when x and y do not have the same first dimension
(a missing result behaves like a mismatching one). -/
def ax_plot_curve (legendKeys : List String) (p : PlotData) : Except String Line :=
  match p.result with
  | none => .error "ValueError: x and y must have same first dimension"
  | some r =>
      if r.mags.length = p.x.mags.length then
        .ok ⟨p.x.mags, r.mags, none, "-", "", legendText legendKeys p.qty⟩
      else .error "ValueError: x and y must have same first dimension"

/-- The `for p_ in self.plots: self.ax.plot(…)` loop of `plot_post` on the
cleared axes: returns the lines drawn so far and the first exception
(a `None` slot raises `AttributeError` at `p_.x`). -/
def plotCurves (legendKeys : List String) :
    List (Option PlotData) → List Line → List Line × Option String
  | [], acc => (acc, none)
  | none :: _, acc => (acc, some "AttributeError")
  | some p :: ps, acc =>
      match ax_plot_curve legendKeys p with
      | .error e => (acc, some e)
      | .ok l => plotCurves legendKeys ps (acc ++ [l])

/-- numpy `np.argmin`: index of the first occurrence of the minimum. -/
def argminL : List ℚ → Nat
  | [] => 0
  | [_] => 0
  | y :: ys => if ys.getD (argminL ys) 0 < y then argminL ys + 1 else 0

/-- numpy `np.argmax`: index of the first occurrence of the maximum. -/
def argmaxL : List ℚ → Nat
  | [] => 0
  | [_] => 0
  | y :: ys => if y < ys.getD (argmaxL ys) 0 then argmaxL ys + 1 else 0

/-- The extremum of pass `i` of `markExtremum` (`funcs = (np.argmin,
np.argmax)`). -/
def argExt (i : Nat) (ys : List ℚ) : Nat := if i = 1 then argmaxL ys else argminL ys

/-- The marker series appended by pass `i` of `markExtremum`: one
first-extremum point per curve, unconnected (`linestyle=''`), marker
`7-i_`, label `'_extrema' + str(i_)` and `gid='extrema'`. -/
def extremaSeries (i : Nat) (curves : List Line) : Line :=
  ⟨curves.map (fun l => l.xdata.getD (argExt i l.ydata) 0),
   curves.map (fun l => l.ydata.getD (argExt i l.ydata) 0),
   some "extrema", "", toString (7 - i), "_extrema" ++ toString i⟩

/-- `ModelPlot.markExtremum(markMin, markMax)`: return unless both states
are `Unchecked`; `numberOfLines` is captured before any extrema series is
appended, so both passes scan exactly the pre-existing lines. -/
def markExtremum (mn mx : CheckState) (lines : List Line) : List Line :=
  if mn = CheckState.unchecked ∧ mx = CheckState.unchecked then lines
  else
    let curves := lines
    let l₁ := if mn = CheckState.unchecked then lines
              else lines ++ [extremaSeries 0 curves]
    if mx = CheckState.unchecked then l₁ else l₁ ++ [extremaSeries 1 curves]

/-- `ModelPlot.markCalculation(mark)`: drop the last line when it carries
`gid='calc'` (an empty axes raises `IndexError`), clear the annotation
overlay, and unless `mark` is `Unchecked` append a fresh `gid='calc'`
marker at the calculated point (`xs[parent.plotX]` raises `KeyError` when
absent), with an annotation overlay when `mark` is `Checked`.  Returns the
new lines, the new overlay and the escaped exception, if any. -/
def markCalculation (mark : CheckState) (calcPoint : List (String × Qty) × Qty)
    (plotX : String) (legendKeys : List String)
    (lines : List Line) (overlay : Option (ℚ × ℚ)) :
    List Line × Option (ℚ × ℚ) × Option String :=
  match lines.getLast? with
  | none => (lines, overlay, some "IndexError: list index out of range")
  | some last =>
      let lines₁ := if last.gid == some "calc" then lines.dropLast else lines
      if mark = CheckState.unchecked then (lines₁, none, none)
      else
        match calcPoint.1.lookup plotX with
        | none => (lines₁, none, some "KeyError")
        | some xq =>
            (lines₁ ++ [⟨[xq.mag], [calcPoint.2.mag], some "calc", "", "x",
                         legendText legendKeys calcPoint.1⟩],
             if mark = CheckState.checked then some (xq.mag, calcPoint.2.mag) else none,
             none)

/-- The observable state driven by `ModelPlot.plot` and its parent page:
the busy indicator (`plot_isBusy`), the errors reported via `error(…)`,
the slot cache `self.plots`, the axes' lines and the calculated-point
annotation overlay `self.overlay`. -/
structure Sys where
  busy : Bool
  reported : List String
  plots : List (Option PlotData)
  lines : List Line
  overlay : Option (ℚ × ℚ)
deriving DecidableEq

/-- The parent state `plot_post` reads: `self.legendKeys`, the three
tristate checkboxes, `parent.calcPoint` and `parent.plotX`. -/
structure PostParams where
  legendKeys : List String
  ckMin : CheckState
  ckMax : CheckState
  ckCalc : CheckState
  calcPoint : List (String × Qty) × Qty
  plotX : String

/-- `ModelPlot.plot_post`: clear the axes, draw every slot's curve inside
`try`, report `Fehler in Modellrückgabe` on the first exception (leaving
the already drawn curves), otherwise mark extrema and the calculated
point; `finally` redraws the canvas and clears the busy indicator. -/
def plot_post (pp : PostParams) (st : Sys) : Sys :=
  match plotCurves pp.legendKeys st.plots [] with
  | (pl, some e) =>
      { st with lines := pl,
                reported := st.reported ++ ["Fehler in Modellrückgabe: " ++ e],
                busy := false }
  | (pl, none) =>
      let l₁ := markExtremum pp.ckMin pp.ckMax pl
      match markCalculation pp.ckCalc pp.calcPoint pp.plotX pp.legendKeys l₁ st.overlay with
      | (l₂, ov, _err) => { st with lines := l₂, overlay := ov, busy := false }

/-- `ModelPlot.plot`: set busy, run `plot_pre` under `try` (report and
clear busy on failure), else hand the slots to the worker; `plot_post`
runs only when the worker emits `completed`, i.e. when no exception
escaped `run`, so a worker exception leaves the busy indicator set and
reports nothing. -/
def plot (model : CalcModel) (inp : PreInput)
    (ckMin ckMax ckCalc : CheckState) (calcPoint : List (String × Qty) × Qty)
    (st : Sys) : Sys :=
  let st₁ := { st with busy := true }
  match plot_pre inp st₁.plots with
  | .error e => { st₁ with reported := st₁.reported ++ [toString e], busy := false }
  | .ok ps =>
      match workerRun model ps with
      | (ps₂, _, some _) => { st₁ with plots := ps₂ }
      | (ps₂, _, none) =>
          plot_post ⟨preLegendKeys inp, ckMin, ckMax, ckCalc, calcPoint, inp.plotX⟩
            { st₁ with plots := ps₂ }

/-- The calculated-point invariant: every line other than the last one is
free of `gid='calc'` — equivalently, at most one line carries `gid='calc'`
and, when present, it is the last line. -/
def calcInv (lines : List Line) : Bool :=
  lines.dropLast.all (fun l => !(l.gid == some "calc"))

/-! ## `PageWidget.checkInputs` and `PageWidget.plot_updatePending` -/

/-- The page state touched by input validation: the plot button, the
status bar message, the stored parsed quantities `self.plotInputQtys`, the
displayed point-calculation result `self.outputLine` and the
busy/okay/pending indicator `self.plotState`. -/
structure PageState where
  plotBtnEnabled : Bool
  statusMsg : String
  plotInputQtys : List (String × List Qty)
  outputLine : String
  plotStateIdx : Nat
deriving DecidableEq

/-- The loop of `PageWidget.checkInputs` over the already parsed field
entries: per key, enable the button and clear the status when every entry
matches the declared dimensionality `self.qtysUnit[k_]`, else disable the
button and raise `DimensionalityException` (which shows the message).  The
error value carries the resulting button state and status message. -/
def checkInputsGo (qtysUnit : String → String) :
    List (String × List Qty) → Bool × String →
    Except (Bool × String) (List (String × List Qty) × Bool × String)
  | [], (b, m) => .ok ([], b, m)
  | (k, qs) :: rest, _ =>
      if qs.all (fun q => q.unit.dim == qtysUnit k) then
        match checkInputsGo qtysUnit rest (true, "") with
        | .ok (r, b, m) => .ok ((k, qs) :: r, b, m)
        | .error e => .error e
      else .error (false, "Fehler: Inkompatible Einheit: " ++ k)

/-- `PageWidget.checkInputs`: validate every field, then disable the plot
button when no plot axis is set. -/
def checkInputs (qtysUnit : String → String) (plotX : String)
    (state : Bool × String) (inputs : List (String × List Qty)) :
    Except (Bool × String) (List (String × List Qty) × Bool × String) :=
  match checkInputsGo qtysUnit inputs state with
  | .ok (r, b, m) => .ok (r, if plotX = "" then false else b, m)
  | .error e => .error e

/-- `PageWidget.plot_updatePending`: `self.plotInputQtys =
self.checkInputs(self.plotInputs)` then mark the plot state pending.  When
`checkInputs` raises, the assignment and the pending marker never execute:
only the button and the status message change. -/
def plot_updatePending (qtysUnit : String → String) (plotX : String)
    (inputs : List (String × List Qty)) (st : PageState) : PageState :=
  match checkInputs qtysUnit plotX (st.plotBtnEnabled, st.statusMsg) inputs with
  | .ok (r, b, m) =>
      { st with plotInputQtys := r, plotBtnEnabled := b, statusMsg := m, plotStateIdx := 2 }
  | .error (b, m) => { st with plotBtnEnabled := b, statusMsg := m }

/-! ## `PageWidget.calc_series` -/

/-- A value handed to the model function: a scalar quantity or an array. -/
inductive QVal where
  | scalar (q : Qty)
  | arr (a : QArr)
deriving DecidableEq

/-- numpy `np.atleast_1d` on a quantity value. -/
def atleast_1d : QVal → QVal
  | .scalar q => .arr ⟨[q.mag], q.unit⟩
  | .arr a => .arr a

/-- A value is in canonical base-unit representation when its unit's scale
factor is 1. -/
def QVal.isBase : QVal → Bool
  | .scalar q => q.unit.scale == 1
  | .arr a => a.unit.scale == 1

/-- Python dict assignment `d[k] = v` on an association list: replace the
value in place, or append the new key. -/
def assocSet (l : List (String × QVal)) (k : String) (v : QVal) :
    List (String × QVal) :=
  if l.any (fun p => p.1 = k) then l.map (fun p => if p.1 = k then (k, v) else p)
  else l ++ [(k, v)]

/-- The variable environment `PageWidget.calc_series` hands to the model:
`qty = dict((k_, q_.to_base_units()) for …)`, then, when a plot axis is
set, `qty[plotX] = np.atleast_1d(qty[plotX]) if x is None else
x.to_base_units()`. -/
def calc_seriesEnv (plotX : String) (x : Option QArr) (qty : List (String × Qty)) :
    List (String × QVal) :=
  let base := qty.map (fun p => (p.1, QVal.scalar (to_base_units p.2)))
  if plotX = "" then base
  else
    match x with
    | none => base.map (fun p => if p.1 = plotX then (p.1, atleast_1d p.2) else p)
    | some xa => assocSet base plotX (QVal.arr xa.to_base_units)

/-- `PageWidget.calc_series` itself: the model function is invoked on the
normalized environment and the option snapshot. -/
def calc_series (model : List (String × QVal) → List (String × String) → QArr)
    (plotX : String) (x : Option QArr) (qty : List (String × Qty))
    (opt : List (String × String)) : QArr :=
  model (calc_seriesEnv plotX x qty) opt

/-! ## Concrete sample data for witnesses and counterexamples -/

/-- A length quantity in the base unit `meter`. -/
def qm (v : ℚ) : Qty := ⟨v, ⟨"meter", 1⟩⟩

/-- A force quantity in the base unit `newton`. -/
def qN (v : ℚ) : Qty := ⟨v, ⟨"newton", 1⟩⟩

/-- A branch function summing its per-index arguments. -/
def sumVals : List (String × List ℚ) → List ℚ → ℚ := fun _ vs => vs.foldl (· + ·) 0

/-- Named variables of lengths 3 and 1. -/
def var31 : List (String × List ℚ) := [("a", [1, 2, 3]), ("b", [10])]

/-- Named variables of lengths 3 and 5. -/
def var35 : List (String × List ℚ) := [("a", [1, 2, 3]), ("b", [10, 20, 30, 40, 50])]

/-- A page with a single relevant input that is also the plot axis. -/
def inpW : PreInput := ⟨[("x", [qm 0, qm 1])], fun _ => true, "x", 2, [("output", "y")]⟩

/-- The sample array `plot_pre` computes for `inpW`. -/
def xW : QArr := ⟨[0, 1], ⟨"meter", 1⟩⟩

/-- A total model returning the sample array itself. -/
def fW : QArr → List (String × Qty) → List (String × String) → QArr := fun x _ _ => x

/-- A model function raising on every invocation. -/
def badModel : CalcModel := fun _ _ _ => .error "boom"

/-- A page whose non-axis input `a` holds a single distinct value, so that
no input varies. -/
def inp3a : PreInput :=
  ⟨[("x", [qm 0, qm 1]), ("a", [qN 5])], fun _ => true, "x", 3, [("output", "y")]⟩

/-- A page with varying families of lengths 3 (`a`) and 2 (`b`). -/
def inp3b : PreInput :=
  ⟨[("x", [qm 0, qm 1]), ("a", [qN 5, qN 6, qN 7]), ("b", [qN 1, qN 2])],
   fun _ => true, "x", 3, [("output", "y")]⟩

/-- An idle plot state with empty cache and empty axes. -/
def sys0 : Sys := ⟨false, [], [], [], none⟩

/-- A point-calculation result `parent.calcPoint`. -/
def calcPoint0 : List (String × Qty) × Qty := ([("x", qm (1 / 2))], qm 1)

/-- A slot whose result length does not match its sample array length, so
drawing it raises `ValueError` in matplotlib. -/
def pdBad : PlotData :=
  ⟨⟨[0, 1], ⟨"meter", 1⟩⟩, [], [("output", "y")], some ⟨[5], ⟨"meter", 1⟩⟩⟩

/-- A previously rendered curve line. -/
def lineOld : Line := ⟨[9], [9], none, "-", "", ""⟩

/-- A plot state holding one previously rendered curve and one bad slot. -/
def sys5 : Sys := ⟨true, [], [some pdBad], [lineOld], none⟩

/-- Post-processing parameters with every marking off. -/
def pp5 : PostParams :=
  ⟨[], CheckState.unchecked, CheckState.unchecked, CheckState.unchecked, calcPoint0, "x"⟩

/-- First sample curve of the extremum example (`y1 = [1, 5, 3]`). -/
def curveA : Line := ⟨[10, 20, 30], [1, 5, 3], none, "-", "", ""⟩

/-- Second sample curve of the extremum example (`y2 = [4, 0, 2]`). -/
def curveB : Line := ⟨[10, 20, 30], [4, 0, 2], none, "-", "", ""⟩

/-- A filled slot (its `result` is present). -/
def pdFilled : PlotData :=
  ⟨⟨[0, 1], ⟨"meter", 1⟩⟩, [("a", qN 5)], [("output", "y")], some ⟨[3, 4], ⟨"meter", 1⟩⟩⟩

/-- An unfilled slot. -/
def pdEmpty : PlotData :=
  ⟨⟨[0, 1], ⟨"meter", 1⟩⟩, [("a", qN 6)], [("output", "y")], none⟩

/-- A page state with stored parsed quantities and a displayed result. -/
def stP : PageState := ⟨true, "", [("a", [qm 2])], "5 meter", 0⟩

/-! ## Helper lemmas -/

theorem qtyEq_refl (q : Qty) : qtyEq q q = true := by
  simp [qtyEq]

theorem qtyPairsEq_refl : ∀ l : List (String × Qty), qtyPairsEq l l = true := by
  intro l
  induction l with
  | nil => rfl
  | cons p t ih => simp [qtyPairsEq, qtyEq_refl, ih]

theorem magsEq_refl (u : QUnit) : ∀ ms : List ℚ, magsEq u u ms ms = true := by
  intro ms
  induction ms with
  | nil => rfl
  | cons m t ih => simp [magsEq, qtyEq_refl, ih]

theorem qarrEq_refl (a : QArr) : qarrEq a a = true := by
  simp [qarrEq, magsEq_refl]

theorem tripleSame_refl (x : QArr) (qty : List (String × Qty))
    (opt : List (String × String)) (r : Option QArr) :
    tripleSame (some ⟨x, qty, opt, r⟩) x qty opt = true := by
  simp [tripleSame, qtyPairsEq_refl, qarrEq_refl]

theorem tripleSame_fillSlot (f : QArr → List (String × Qty) → List (String × String) → QArr)
    (s : Option PlotData) (x : QArr) (qty : List (String × Qty))
    (opt : List (String × String)) :
    tripleSame (fillSlot f s) x qty opt = tripleSame s x qty opt := by
  match s with
  | none => rfl
  | some p =>
      match h : p.result with
      | some r => simp [fillSlot, h]
      | none => simp [fillSlot, h, tripleSame]

theorem tripleSame_none (x : QArr) (qty : List (String × Qty))
    (opt : List (String × String)) : tripleSame none x qty opt = false := rfl

theorem updateSlots_length (x : QArr) (fam : List (String × List Qty))
    (opt : List (String × String)) :
    ∀ (ps : List (Option PlotData)) (j : Nat),
      (updateSlots x fam opt j ps).length = ps.length := by
  intro ps
  induction ps with
  | nil => intro j; rfl
  | cons p t ih => intro j; simp [updateSlots, ih]

theorem updateSlots_getElem? (x : QArr) (fam : List (String × List Qty))
    (opt : List (String × String)) :
    ∀ (ps : List (Option PlotData)) (j i : Nat),
      (updateSlots x fam opt j ps)[i]? = (ps[i]?).map (slotStep x fam opt (j + i)) := by
  intro ps
  induction ps with
  | nil => intro j i; simp [updateSlots]
  | cons p t ih =>
      intro j i
      cases i with
      | zero => simp [updateSlots]
      | succ i =>
          simp only [updateSlots, List.getElem?_cons_succ]
          rw [ih (j + 1) i]
          have : j + 1 + i = j + (i + 1) := by omega
          rw [this]

theorem updateSlots_id (x : QArr) (fam : List (String × List Qty))
    (opt : List (String × String)) :
    ∀ (ps : List (Option PlotData)) (j : Nat),
      (∀ i p, ps[i]? = some p → tripleSame p x (qtyAt fam (j + i)) opt = true) →
      updateSlots x fam opt j ps = ps := by
  intro ps
  induction ps with
  | nil => intro j _; rfl
  | cons p t ih =>
      intro j h
      have h0 : tripleSame p x (qtyAt fam j) opt = true := by
        have := h 0 p (by simp)
        simpa using this
      have ht : updateSlots x fam opt (j + 1) t = t := by
        apply ih
        intro i q hq
        have := h (i + 1) q (by simpa using hq)
        have e : j + (i + 1) = j + 1 + i := by omega
        rw [e] at this
        exact this
      simp [updateSlots, slotStep, h0, ht]

theorem updateSlots_allSome (x : QArr) (fam : List (String × List Qty))
    (opt : List (String × String)) :
    ∀ (ps : List (Option PlotData)) (j : Nat),
      (updateSlots x fam opt j ps).all Option.isSome = true := by
  intro ps
  induction ps with
  | nil => intro j; rfl
  | cons p t ih =>
      intro j
      simp only [updateSlots, List.all_cons, Bool.and_eq_true]
      refine ⟨?_, ih (j + 1)⟩
      unfold slotStep
      match p with
      | none => simp [tripleSame_none]
      | some q => split <;> simp

theorem resizeSlots_length (plots : List (Option PlotData)) (n : Nat) :
    (resizeSlots plots n).length = n := by
  unfold resizeSlots
  split
  · simp [List.length_take]; omega
  · simp; omega

theorem resizeSlots_self (plots : List (Option PlotData)) (n : Nat)
    (h : plots.length = n) : resizeSlots plots n = plots := by
  unfold resizeSlots
  rw [if_pos (by omega)]
  rw [← h]
  exact List.take_length plots

theorem fillAll_getElem? (f : QArr → List (String × Qty) → List (String × String) → QArr)
    (ps : List (Option PlotData)) (i : Nat) :
    (fillAll f ps)[i]? = (ps[i]?).map (fillSlot f) := by
  simp [fillAll, List.getElem?_map]

theorem fillAll_length (f : QArr → List (String × Qty) → List (String × String) → QArr)
    (ps : List (Option PlotData)) : (fillAll f ps).length = ps.length := by
  simp [fillAll]

theorem fillAll_filled (f : QArr → List (String × Qty) → List (String × String) → QArr) :
    ∀ ps : List (Option PlotData), ps.all Option.isSome = true →
      (fillAll f ps).all slotFilled = true := by
  intro ps
  induction ps with
  | nil => intro _; rfl
  | cons s t ih =>
      intro h
      simp only [List.all_cons, Bool.and_eq_true] at h
      simp only [fillAll, List.map_cons, List.all_cons, Bool.and_eq_true]
      constructor
      · match s with
        | none => simp at h
        | some p =>
            match hr : p.result with
            | some r => simp [fillSlot, hr, slotFilled]
            | none => simp [fillSlot, hr, slotFilled]
      · exact ih h.2

theorem workerRun_total (f : QArr → List (String × Qty) → List (String × String) → QArr) :
    ∀ ps : List (Option PlotData), ps.all Option.isSome = true →
      workerRun (totalModel f) ps = (fillAll f ps, ps.countP slotUnfilled, none) := by
  intro ps
  induction ps with
  | nil => intro _; rfl
  | cons s t ih =>
      intro h
      simp only [List.all_cons, Bool.and_eq_true] at h
      match s with
      | none => simp at h
      | some p =>
          have ht := ih h.2
          match hr : p.result with
          | some r =>
              simp [workerRun, hr, ht, fillAll, fillSlot, List.countP_cons, slotUnfilled]
          | none =>
              simp [workerRun, hr, totalModel, ht, fillAll, fillSlot,
                List.countP_cons, slotUnfilled]

theorem workerRun_skip (m : CalcModel) :
    ∀ ps : List (Option PlotData), ps.all slotFilled = true →
      workerRun m ps = (ps, 0, none) := by
  intro ps
  induction ps with
  | nil => intro _; rfl
  | cons s t ih =>
      intro h
      simp only [List.all_cons, Bool.and_eq_true] at h
      match s with
      | none => simp [slotFilled] at h
      | some p =>
          match hr : p.result with
          | some r => simp [workerRun, hr, ih h.2]
          | none => simp [slotFilled, hr] at h

theorem workerRun_length (m : CalcModel) :
    ∀ (ps ps₂ : List (Option PlotData)) (c : Nat) (e : Option String),
      workerRun m ps = (ps₂, c, e) → ps₂.length = ps.length := by
  intro ps
  induction ps with
  | nil =>
      intro ps₂ c e hw
      simp [workerRun] at hw
      simp [hw.1.symm]
  | cons s t ih =>
      intro ps₂ c e hw
      match s with
      | none =>
          simp [workerRun] at hw
          simp [hw.1.symm]
      | some p =>
          match hr : p.result with
          | some r =>
              rcases hwt : workerRun m t with ⟨ps', c', e'⟩
              simp [workerRun, hr, hwt] at hw
              rw [← hw.1]
              simp [ih ps' c' e' hwt]
          | none =>
              match hm : m p.x p.qty p.opt with
              | .error err =>
                  simp [workerRun, hr, hm] at hw
                  rw [← hw.1]
              | .ok r =>
                  rcases hwt : workerRun m t with ⟨ps', c', e'⟩
                  simp [workerRun, hr, hm, hwt] at hw
                  rw [← hw.1]
                  simp [ih ps' c' e' hwt]

theorem workerRun_keepsFilled (m : CalcModel) :
    ∀ (ps ps₂ : List (Option PlotData)) (c : Nat) (e : Option String),
      workerRun m ps = (ps₂, c, e) →
      ∀ (i : Nat) (p : PlotData), ps[i]? = some (some p) → p.result.isSome = true →
        ps₂[i]? = some (some p) := by
  intro ps
  induction ps with
  | nil => intro ps₂ c e hw i p hp; simp at hp
  | cons s t ih =>
      intro ps₂ c e hw i p hp hfilled
      match s with
      | none =>
          simp [workerRun] at hw
          rw [← hw.1]
          exact hp
      | some q =>
          match hr : q.result with
          | some r =>
              rcases hwt : workerRun m t with ⟨ps', c', e'⟩
              simp [workerRun, hr, hwt] at hw
              rw [← hw.1]
              cases i with
              | zero => simpa using hp
              | succ i =>
                  simp only [List.getElem?_cons_succ] at hp ⊢
                  exact ih ps' c' e' hwt i p hp hfilled
          | none =>
              match hm : m q.x q.qty q.opt with
              | .error err =>
                  simp [workerRun, hr, hm] at hw
                  rw [← hw.1]
                  exact hp
              | .ok r =>
                  rcases hwt : workerRun m t with ⟨ps', c', e'⟩
                  simp [workerRun, hr, hm, hwt] at hw
                  rw [← hw.1]
                  cases i with
                  | zero =>
                      simp only [List.getElem?_cons_zero, Option.some.injEq,
                        Option.some.injEq] at hp
                      subst hp
                      rw [hr] at hfilled
                      simp at hfilled
                  | succ i =>
                      simp only [List.getElem?_cons_succ] at hp ⊢
                      exact ih ps' c' e' hwt i p hp hfilled

theorem workerRun_fields (m : CalcModel) :
    ∀ (ps ps₂ : List (Option PlotData)) (c : Nat) (e : Option String),
      workerRun m ps = (ps₂, c, e) →
      ∀ (i : Nat) (p₂ : PlotData), ps₂[i]? = some (some p₂) →
        ∃ p : PlotData, ps[i]? = some (some p) ∧ p₂.x = p.x ∧ p₂.qty = p.qty
          ∧ p₂.opt = p.opt ∧ (p.result.isSome = true → p₂ = p) := by
  intro ps
  induction ps with
  | nil =>
      intro ps₂ c e hw i p₂ hp
      simp [workerRun] at hw
      rw [hw.1] at hp
      simp at hp
  | cons s t ih =>
      intro ps₂ c e hw i p₂ hp
      match s with
      | none =>
          simp [workerRun] at hw
          rw [← hw.1] at hp
          exact ⟨p₂, hp, rfl, rfl, rfl, fun _ => rfl⟩
      | some q =>
          match hr : q.result with
          | some r =>
              rcases hwt : workerRun m t with ⟨ps', c', e'⟩
              simp [workerRun, hr, hwt] at hw
              rw [← hw.1] at hp
              cases i with
              | zero =>
                  simp only [List.getElem?_cons_zero, Option.some.injEq,
                    Option.some.injEq] at hp
                  exact ⟨p₂, by simp [hp], rfl, rfl, rfl, fun _ => rfl⟩
              | succ i =>
                  simp only [List.getElem?_cons_succ] at hp ⊢
                  exact ih ps' c' e' hwt i p₂ hp
          | none =>
              match hm : m q.x q.qty q.opt with
              | .error err =>
                  simp [workerRun, hr, hm] at hw
                  rw [← hw.1] at hp
                  exact ⟨p₂, hp, rfl, rfl, rfl, fun _ => rfl⟩
              | .ok r =>
                  rcases hwt : workerRun m t with ⟨ps', c', e'⟩
                  simp [workerRun, hr, hm, hwt] at hw
                  rw [← hw.1] at hp
                  cases i with
                  | zero =>
                      simp only [List.getElem?_cons_zero, Option.some.injEq,
                        Option.some.injEq] at hp
                      refine ⟨q, by simp, ?_, ?_, ?_, ?_⟩
                      · rw [← hp]
                      · rw [← hp]
                      · rw [← hp]
                      · intro hf; rw [hr] at hf; simp at hf
                  | succ i =>
                      simp only [List.getElem?_cons_succ] at hp ⊢
                      exact ih ps' c' e' hwt i p₂ hp

theorem workerRun_keepsNone (m : CalcModel) :
    ∀ (ps ps₂ : List (Option PlotData)) (c : Nat) (e : Option String),
      workerRun m ps = (ps₂, c, e) →
      ∀ i : Nat, ps[i]? = some none → ps₂[i]? = some none := by
  intro ps
  induction ps with
  | nil => intro ps₂ c e hw i hp; simp at hp
  | cons s t ih =>
      intro ps₂ c e hw i hp
      match s with
      | none =>
          simp [workerRun] at hw
          rw [← hw.1]
          exact hp
      | some q =>
          match hr : q.result with
          | some r =>
              rcases hwt : workerRun m t with ⟨ps', c', e'⟩
              simp [workerRun, hr, hwt] at hw
              rw [← hw.1]
              cases i with
              | zero => simp at hp
              | succ i =>
                  simp only [List.getElem?_cons_succ] at hp ⊢
                  exact ih ps' c' e' hwt i hp
          | none =>
              match hm : m q.x q.qty q.opt with
              | .error err =>
                  simp [workerRun, hr, hm] at hw
                  rw [← hw.1]
                  exact hp
              | .ok r =>
                  rcases hwt : workerRun m t with ⟨ps', c', e'⟩
                  simp [workerRun, hr, hm, hwt] at hw
                  rw [← hw.1]
                  cases i with
                  | zero => simp at hp
                  | succ i =>
                      simp only [List.getElem?_cons_succ] at hp ⊢
                      exact ih ps' c' e' hwt i hp

theorem argminL_cons (y z : ℚ) (zs : List ℚ) :
    argminL (y :: z :: zs) =
      if (z :: zs).getD (argminL (z :: zs)) 0 < y then argminL (z :: zs) + 1 else 0 := rfl

theorem argmaxL_cons (y z : ℚ) (zs : List ℚ) :
    argmaxL (y :: z :: zs) =
      if y < (z :: zs).getD (argmaxL (z :: zs)) 0 then argmaxL (z :: zs) + 1 else 0 := rfl

theorem argminL_spec : ∀ ys : List ℚ, ys ≠ [] →
    argminL ys < ys.length ∧
    (∀ j, j < ys.length → ys.getD (argminL ys) 0 ≤ ys.getD j 0) ∧
    (∀ j, j < argminL ys → ys.getD (argminL ys) 0 < ys.getD j 0) := by
  intro ys
  induction ys with
  | nil => intro h; exact absurd rfl h
  | cons y t ih =>
      intro _
      match t with
      | [] =>
          refine ⟨by simp [argminL], ?_, ?_⟩
          · intro j hj
            have : j = 0 := by simpa using hj
            subst this
            simp [argminL]
          · intro j hj
            simp [argminL] at hj
      | z :: zs =>
          obtain ⟨h1, h2, h3⟩ := ih (by simp)
          by_cases hlt : (z :: zs).getD (argminL (z :: zs)) 0 < y
          · have he : argminL (y :: z :: zs) = argminL (z :: zs) + 1 := by
              rw [argminL_cons, if_pos hlt]
            refine ⟨?_, ?_, ?_⟩
            · rw [he]; simpa using h1
            · intro j hj
              rw [he]
              cases j with
              | zero => simpa using le_of_lt hlt
              | succ j =>
                  simp only [List.getD_cons_succ]
                  exact h2 j (by simpa using hj)
            · intro j hj
              rw [he] at hj ⊢
              cases j with
              | zero => simpa using hlt
              | succ j =>
                  simp only [List.getD_cons_succ]
                  exact h3 j (by omega)
          · have he : argminL (y :: z :: zs) = 0 := by
              rw [argminL_cons, if_neg hlt]
            have hy : y ≤ (z :: zs).getD (argminL (z :: zs)) 0 := le_of_not_lt hlt
            refine ⟨by simp [he], ?_, ?_⟩
            · intro j hj
              rw [he]
              cases j with
              | zero => simp
              | succ j =>
                  simp only [List.getD_cons_zero, List.getD_cons_succ]
                  exact le_trans hy (h2 j (by simpa using hj))
            · intro j hj
              rw [he] at hj
              omega

theorem argmaxL_spec : ∀ ys : List ℚ, ys ≠ [] →
    argmaxL ys < ys.length ∧
    (∀ j, j < ys.length → ys.getD j 0 ≤ ys.getD (argmaxL ys) 0) ∧
    (∀ j, j < argmaxL ys → ys.getD j 0 < ys.getD (argmaxL ys) 0) := by
  intro ys
  induction ys with
  | nil => intro h; exact absurd rfl h
  | cons y t ih =>
      intro _
      match t with
      | [] =>
          refine ⟨by simp [argmaxL], ?_, ?_⟩
          · intro j hj
            have : j = 0 := by simpa using hj
            subst this
            simp [argmaxL]
          · intro j hj
            simp [argmaxL] at hj
      | z :: zs =>
          obtain ⟨h1, h2, h3⟩ := ih (by simp)
          by_cases hlt : y < (z :: zs).getD (argmaxL (z :: zs)) 0
          · have he : argmaxL (y :: z :: zs) = argmaxL (z :: zs) + 1 := by
              rw [argmaxL_cons, if_pos hlt]
            refine ⟨?_, ?_, ?_⟩
            · rw [he]; simpa using h1
            · intro j hj
              rw [he]
              cases j with
              | zero => simpa using le_of_lt hlt
              | succ j =>
                  simp only [List.getD_cons_succ]
                  exact h2 j (by simpa using hj)
            · intro j hj
              rw [he] at hj ⊢
              cases j with
              | zero => simpa using hlt
              | succ j =>
                  simp only [List.getD_cons_succ]
                  exact h3 j (by omega)
          · have he : argmaxL (y :: z :: zs) = 0 := by
              rw [argmaxL_cons, if_neg hlt]
            have hy : (z :: zs).getD (argmaxL (z :: zs)) 0 ≤ y := le_of_not_lt hlt
            refine ⟨by simp [he], ?_, ?_⟩
            · intro j hj
              rw [he]
              cases j with
              | zero => simp
              | succ j =>
                  simp only [List.getD_cons_zero, List.getD_cons_succ]
                  exact le_trans (h2 j (by simpa using hj)) hy
            · intro j hj
              rw [he] at hj
              omega

theorem all_dropLast (p : Line → Bool) (l : List Line) (h : l.all p = true) :
    l.dropLast.all p = true := by
  rw [List.all_eq_true] at h ⊢
  intro x hx
  exact h x ((List.dropLast_sublist l).subset hx)

theorem ax_plot_curve_gid (legendKeys : List String) (p : PlotData) (l : Line)
    (h : ax_plot_curve legendKeys p = .ok l) : l.gid = none := by
  match hr : p.result with
  | none => simp [ax_plot_curve, hr] at h
  | some r =>
      simp only [ax_plot_curve, hr] at h
      split at h
      · cases h
        rfl
      · exact absurd h (by simp)

theorem plotCurves_all (legendKeys : List String) (P : Line → Bool)
    (hP : ∀ p l, ax_plot_curve legendKeys p = .ok l → P l = true) :
    ∀ (ps : List (Option PlotData)) (acc : List Line), acc.all P = true →
      (plotCurves legendKeys ps acc).1.all P = true := by
  intro ps
  induction ps with
  | nil => intro acc h; simpa [plotCurves] using h
  | cons s t ih =>
      intro acc h
      match s with
      | none => simpa [plotCurves] using h
      | some p =>
          match hc : ax_plot_curve legendKeys p with
          | .error e => simpa [plotCurves, hc] using h
          | .ok l =>
              simp only [plotCurves, hc]
              exact ih (acc ++ [l]) (by simp [List.all_append, h, hP p l hc])

theorem markExtremum_no_calc (mn mx : CheckState) (lines : List Line)
    (h : lines.all (fun l => !(l.gid == some "calc")) = true) :
    (markExtremum mn mx lines).all (fun l => !(l.gid == some "calc")) = true := by
  unfold markExtremum
  split
  · exact h
  · have hs : ∀ i, (!((extremaSeries i lines).gid == some "calc")) = true := by
      intro i
      simp [extremaSeries]
    split <;> split <;> simp [List.all_append, h, hs]

theorem markCalculation_calcInv (mark : CheckState)
    (calcPoint : List (String × Qty) × Qty) (plotX : String)
    (legendKeys : List String) (lines : List Line) (overlay : Option (ℚ × ℚ))
    (h : calcInv lines = true) :
    calcInv (markCalculation mark calcPoint plotX legendKeys lines overlay).1 = true := by
  unfold markCalculation
  match hl : lines.getLast? with
  | none => exact h
  | some last =>
      have hdecomp : lines.dropLast ++ [last] = lines :=
        List.dropLast_append_getLast? last hl
      by_cases hcalc : (last.gid == some "calc") = true
      · have h₁ : lines.dropLast.all (fun l => !(l.gid == some "calc")) = true := h
        simp only [hcalc, if_true]
        split
        · exact all_dropLast _ _ h₁
        · split
          · exact all_dropLast _ _ h₁
          · simp only [calcInv, List.dropLast_concat]
            exact h₁
      · have hall : lines.all (fun l => !(l.gid == some "calc")) = true := by
          rw [← hdecomp, List.all_append]
          simp only [Bool.and_eq_true]
          refine ⟨h, ?_⟩
          simp only [List.all_cons, List.all_nil, Bool.and_true]
          simpa using hcalc
        simp only [Bool.not_eq_true] at hcalc
        simp only [hcalc, if_false]
        split
        · exact all_dropLast _ _ hall
        · split
          · exact all_dropLast _ _ hall
          · simp only [calcInv, List.dropLast_concat]
            exact hall

theorem checkInputsGo_error (qtysUnit : String → String) :
    ∀ (inputs : List (String × List Qty)) (st : Bool × String),
      (∃ p ∈ inputs, ∃ q ∈ p.2, q.unit.dim ≠ qtysUnit p.1) →
      ∃ m, checkInputsGo qtysUnit inputs st = .error (false, m) := by
  intro inputs
  induction inputs with
  | nil =>
      intro st h
      obtain ⟨p, hp, _⟩ := h
      simp at hp
  | cons kqs rest ih =>
      intro st h
      by_cases hall : kqs.2.all (fun q => q.unit.dim == qtysUnit kqs.1) = true
      · have hrest : ∃ p ∈ rest, ∃ q ∈ p.2, q.unit.dim ≠ qtysUnit p.1 := by
          obtain ⟨p, hp, q, hq, hne⟩ := h
          rcases List.mem_cons.mp hp with heq | hmem
          · subst heq
            rw [List.all_eq_true] at hall
            exact absurd (by simpa using hall q hq) hne
          · exact ⟨p, hmem, q, hq, hne⟩
        obtain ⟨m, hm⟩ := ih (true, "") hrest
        refine ⟨m, ?_⟩
        match kqs with
        | (k, qs) =>
            simp only [checkInputsGo, hall, if_true, hm]
      · refine ⟨"Fehler: Inkompatible Einheit: " ++ kqs.1, ?_⟩
        match kqs with
        | (k, qs) =>
            simp only [checkInputsGo]
            rw [if_neg hall]

theorem atleast_1d_isBase (v : QVal) (h : v.isBase = true) :
    (atleast_1d v).isBase = true := by
  match v with
  | .scalar q => simpa [atleast_1d, QVal.isBase] using h
  | .arr a => simpa [atleast_1d, QVal.isBase] using h

theorem assocSet_isBase (l : List (String × QVal)) (k : String) (v : QVal)
    (hl : l.all (fun p => p.2.isBase) = true) (hv : v.isBase = true) :
    (assocSet l k v).all (fun p => p.2.isBase) = true := by
  unfold assocSet
  split
  · rw [List.all_eq_true] at hl ⊢
    intro p hp
    obtain ⟨p₀, hp₀, he⟩ := List.mem_map.mp hp
    by_cases hk : p₀.1 = k
    · rw [if_pos hk] at he
      rw [← he]
      exact hv
    · rw [if_neg hk] at he
      rw [← he]
      exact hl p₀ hp₀
  · simp [List.all_append, hl, hv]

theorem tripleSame_slotStep (x : QArr) (fam : List (String × List Qty))
    (opt : List (String × String)) (i : Nat) (p : Option PlotData) :
    tripleSame (slotStep x fam opt i p) x (qtyAt fam i) opt = true := by
  unfold slotStep
  split
  · assumption
  · exact tripleSame_refl x (qtyAt fam i) opt none

theorem np_resize_getD (xs : List ℚ) (L i : Nat) (hi : i < L) :
    (np_resize xs L).getD i 0 = xs.getD (i % xs.length) 0 := by
  simp [np_resize, List.getD_eq_getElem?_getD, List.getElem?_map, List.getElem?_range, hi]

/-! ## Claim theorems -/

/-- C2: `piecewise` broadcasts the variables named by `keys` to the length
`L` of the longest one by cyclic repetition (not zero-padding), invokes the
branch function once per index `0..L-1`, and, when the branch function
returns a scalar per invocation, outputs one array of length `L`.  In
particular, named variables of lengths 3 and 1 yield an output of length
3, and of lengths 3 and 5 an output of length 5 with the length-3 input
cyclically repeated. -/
theorem piecewise_cyclic_broadcast :
    (∀ (f : List (String × List ℚ) → List ℚ → ℚ) (var : List (String × List ℚ))
       (keys : List String), keys ≠ [] →
       (piecewise f var keys).length
         = (keys.map (fun k => ((var.lookup k).getD []).length)).foldl Nat.max 0) ∧
    (∀ (f : List (String × List ℚ) → List ℚ → ℚ) (var : List (String × List ℚ))
       (keys : List String) (i : Nat),
       i < (keys.map (fun k => ((var.lookup k).getD []).length)).foldl Nat.max 0 →
       (piecewise f var keys)[i]?
         = some (f var (keys.map (fun k =>
             ((var.lookup k).getD []).getD (i % ((var.lookup k).getD []).length) 0)))) ∧
    (piecewise sumVals var31 ["a", "b"]).length = 3 ∧
    piecewise sumVals var35 ["a", "b"] = [11, 22, 33, 41, 52] := by
  refine ⟨?_, ?_, by with_unfolding_all decide, by with_unfolding_all decide⟩
  · intro f var keys hk
    simp [piecewise, List.map_map, Function.comp_def]
  · intro f var keys i hi
    simp only [piecewise]
    have hL : (List.map List.length
          (List.map (fun k => (List.lookup k var).getD []) keys)).foldl Nat.max 0
        = (keys.map (fun k => ((var.lookup k).getD []).length)).foldl Nat.max 0 := by
      rw [List.map_map]
      rfl
    rw [hL]
    have hr : (List.range
        ((keys.map (fun k => ((var.lookup k).getD []).length)).foldl Nat.max 0))[i]?
        = some i := by
      simp [List.getElem?_range, hi]
    rw [List.getElem?_map, hr]
    simp only [Option.map_some']
    congr 1
    congr 1
    rw [List.map_map, List.map_map]
    apply List.map_congr_left
    intro k _
    exact np_resize_getD ((var.lookup k).getD []) _ i hi

/-- C8: every quantity `calc_series` passes into the model function —
the per-curve parameters and, when a plot axis is set, the
independent-variable sample array — is first normalized to the canonical
base-unit representation (`to_base_units`), before the model combines any
quantities. -/
theorem calc_series_base_normalized :
    (∀ (plotX : String) (x : Option QArr) (qty : List (String × Qty)),
       ((calc_seriesEnv plotX x qty).all (fun p => p.2.isBase)) = true) ∧
    (∀ (model : List (String × QVal) → List (String × String) → QArr)
       (plotX : String) (x : Option QArr) (qty : List (String × Qty))
       (opt : List (String × String)),
       calc_series model plotX x qty opt = model (calc_seriesEnv plotX x qty) opt) := by
  constructor
  · intro plotX x qty
    have hbase : ((qty.map (fun p => (p.1, QVal.scalar (to_base_units p.2)))).all
        (fun p => p.2.isBase)) = true := by
      rw [List.all_eq_true]
      intro p hp
      obtain ⟨p₀, hp₀, he⟩ := List.mem_map.mp hp
      rw [← he]
      simp [QVal.isBase, to_base_units]
    simp only [calc_seriesEnv]
    split
    · exact hbase
    · match x with
      | none =>
          rw [List.all_eq_true] at hbase ⊢
          intro p hp
          obtain ⟨p₀, hp₀, he⟩ := List.mem_map.mp hp
          by_cases hkey : p₀.1 = plotX
          · rw [if_pos hkey] at he
            rw [← he]
            exact atleast_1d_isBase _ (hbase p₀ hp₀)
          · rw [if_neg hkey] at he
            rw [← he]
            exact hbase p₀ hp₀
      | some xa =>
          apply assocSet_isBase _ _ _ hbase
          simp [QVal.isBase, QArr.to_base_units]
  · intro model plotX x qty opt
    rfl

/-- C7: when some entered field holds a quantity whose dimensionality
differs from the input's declared one, `checkInputs` raises
`DimensionalityException` with the plot button disabled, and
`plot_updatePending` leaves the stored parsed quantities
(`plotInputQtys`), the displayed result (`outputLine`) and the pending
marker unchanged: the mapping is not reassigned on failure. -/
theorem checkInputs_dimensionality (qtysUnit : String → String) (plotX : String)
    (inputs : List (String × List Qty)) (st : PageState)
    (h : ∃ p ∈ inputs, ∃ q ∈ p.2, q.unit.dim ≠ qtysUnit p.1) :
    (∃ m, checkInputs qtysUnit plotX (st.plotBtnEnabled, st.statusMsg) inputs
        = .error (false, m)) ∧
    (plot_updatePending qtysUnit plotX inputs st).plotBtnEnabled = false ∧
    (plot_updatePending qtysUnit plotX inputs st).plotInputQtys = st.plotInputQtys ∧
    (plot_updatePending qtysUnit plotX inputs st).outputLine = st.outputLine ∧
    (plot_updatePending qtysUnit plotX inputs st).plotStateIdx = st.plotStateIdx := by
  obtain ⟨m, hm⟩ := checkInputsGo_error qtysUnit inputs (st.plotBtnEnabled, st.statusMsg) h
  have hc : checkInputs qtysUnit plotX (st.plotBtnEnabled, st.statusMsg) inputs
      = .error (false, m) := by
    simp [checkInputs, hm]
  refine ⟨⟨m, hc⟩, ?_, ?_, ?_, ?_⟩ <;> simp [plot_updatePending, hc]

/-- C7 witness: a concrete field `a` entered in seconds against a declared
dimension of meters. -/
theorem checkInputs_dimensionality_witness :
    (∃ m, checkInputs (fun _ => "meter") "x" (stP.plotBtnEnabled, stP.statusMsg)
        [("a", [⟨1, ⟨"second", 1⟩⟩])] = .error (false, m)) ∧
    (plot_updatePending (fun _ => "meter") "x" [("a", [⟨1, ⟨"second", 1⟩⟩])] stP).plotBtnEnabled
      = false ∧
    (plot_updatePending (fun _ => "meter") "x" [("a", [⟨1, ⟨"second", 1⟩⟩])] stP).plotInputQtys
      = stP.plotInputQtys ∧
    (plot_updatePending (fun _ => "meter") "x" [("a", [⟨1, ⟨"second", 1⟩⟩])] stP).outputLine
      = stP.outputLine ∧
    (plot_updatePending (fun _ => "meter") "x" [("a", [⟨1, ⟨"second", 1⟩⟩])] stP).plotStateIdx
      = stP.plotStateIdx :=
  checkInputs_dimensionality (fun _ => "meter") "x" [("a", [⟨1, ⟨"second", 1⟩⟩])] stP
    ⟨("a", [⟨1, ⟨"second", 1⟩⟩]), by simp, ⟨1, ⟨"second", 1⟩⟩, by simp, by decide⟩

/-- C2 witness: the length law applied to the concrete lengths-3-and-1
call. -/
theorem piecewise_cyclic_broadcast_witness :
    (piecewise sumVals var31 ["a", "b"]).length
      = (["a", "b"].map (fun k => ((var31.lookup k).getD []).length)).foldl Nat.max 0 ∧
    (piecewise sumVals var35 ["a", "b"])[3]?
      = some (sumVals var35 (["a", "b"].map (fun k =>
          ((var35.lookup k).getD []).getD (3 % ((var35.lookup k).getD []).length) 0))) :=
  ⟨piecewise_cyclic_broadcast.1 sumVals var31 ["a", "b"] (by decide),
   piecewise_cyclic_broadcast.2.1 sumVals var35 ["a", "b"] 3 (by decide)⟩

/-- C9: a worker run only ever writes into the `result` field of slots
whose result is absent: the slot list keeps its length (the worker never
resizes or replaces it), slots whose result is already present are
returned unchanged in every field, every output slot differs from its
input slot at most in `result`, and `None` placeholder slots are left in
place. -/
theorem workerRun_frame (m : CalcModel) (ps ps₂ : List (Option PlotData))
    (c : Nat) (e : Option String) (h : workerRun m ps = (ps₂, c, e)) :
    ps₂.length = ps.length ∧
    (∀ (i : Nat) (p : PlotData), ps[i]? = some (some p) → p.result.isSome = true →
       ps₂[i]? = some (some p)) ∧
    (∀ (i : Nat) (p₂ : PlotData), ps₂[i]? = some (some p₂) →
       ∃ p : PlotData, ps[i]? = some (some p) ∧ p₂.x = p.x ∧ p₂.qty = p.qty ∧ p₂.opt = p.opt
         ∧ (p.result.isSome = true → p₂ = p)) ∧
    (∀ i : Nat, ps[i]? = some none → ps₂[i]? = some none) :=
  ⟨workerRun_length m ps ps₂ c e h, workerRun_keepsFilled m ps ps₂ c e h,
   workerRun_fields m ps ps₂ c e h, workerRun_keepsNone m ps ps₂ c e h⟩

/-- C9 witness: a batch of one filled and one unfilled slot, with a model
that raises: the filled slot is returned verbatim and the list length is
preserved. -/
theorem workerRun_frame_witness :
    ([some pdFilled, some pdEmpty] : List (Option PlotData)).length
      = ([some pdFilled, some pdEmpty] : List (Option PlotData)).length ∧
    ([some pdFilled, some pdEmpty] : List (Option PlotData))[0]? = some (some pdFilled) :=
  ⟨(workerRun_frame badModel [some pdFilled, some pdEmpty] [some pdFilled, some pdEmpty]
      1 (some "boom") (by with_unfolding_all decide)).1,
   (workerRun_frame badModel [some pdFilled, some pdEmpty] [some pdFilled, some pdEmpty]
      1 (some "boom") (by with_unfolding_all decide)).2.1 0 pdFilled (by decide)
      (by with_unfolding_all decide)⟩

/-- C6: for each of the independently selectable first-minimum and
first-maximum markings, `markExtremum` collects, per rendered curve, the
point at the first index (first occurrence on ties) attaining that curve's
extreme value, and appends them as one unconnected (`linestyle=''`) marker
series with the stable `gid='extrema'`, distinct from the primary curve
lines (whose `gid` is `None`); the pre-existing lines are unchanged.
Concretely, minimum marking on `y1=[1,5,3]`, `y2=[4,0,2]` yields the
points `(x[0], 1)` and `(x[1], 0)`. -/
theorem markExtremum_first_extrema :
    (∀ ys : List ℚ, ys ≠ [] →
       argminL ys < ys.length ∧
       (∀ j, j < ys.length → ys.getD (argminL ys) 0 ≤ ys.getD j 0) ∧
       (∀ j, j < argminL ys → ys.getD (argminL ys) 0 < ys.getD j 0)) ∧
    (∀ ys : List ℚ, ys ≠ [] →
       argmaxL ys < ys.length ∧
       (∀ j, j < ys.length → ys.getD j 0 ≤ ys.getD (argmaxL ys) 0) ∧
       (∀ j, j < argmaxL ys → ys.getD j 0 < ys.getD (argmaxL ys) 0)) ∧
    (∀ (i : Nat) (curves : List Line),
       (extremaSeries i curves).xdata
           = curves.map (fun l => l.xdata.getD (argExt i l.ydata) 0) ∧
       (extremaSeries i curves).ydata
           = curves.map (fun l => l.ydata.getD (argExt i l.ydata) 0) ∧
       (extremaSeries i curves).linestyle = "" ∧
       (extremaSeries i curves).gid = some "extrema") ∧
    (∀ (legendKeys : List String) (p : PlotData) (l : Line),
       ax_plot_curve legendKeys p = .ok l → l.gid = none) ∧
    (∀ (mn mx : CheckState) (lines : List Line), mn ≠ CheckState.unchecked →
       (markExtremum mn mx lines).take lines.length = lines ∧
       (markExtremum mn mx lines)[lines.length]? = some (extremaSeries 0 lines)) ∧
    markExtremum CheckState.halfChecked CheckState.unchecked [curveA, curveB]
      = [curveA, curveB, ⟨[10, 20], [1, 0], some "extrema", "", "7", "_extrema0"⟩] := by
  refine ⟨argminL_spec, argmaxL_spec, ?_, ax_plot_curve_gid, ?_,
    by with_unfolding_all decide⟩
  · intro i curves
    exact ⟨rfl, rfl, rfl, rfl⟩
  · intro mn mx lines hmn
    simp only [markExtremum]
    rw [if_neg (by simp [hmn])]
    rw [if_neg hmn]
    by_cases hmx : mx = CheckState.unchecked
    · rw [if_pos hmx]
      exact ⟨List.take_left .., List.getElem?_concat_length ..⟩
    · rw [if_neg hmx]
      constructor
      · rw [List.append_assoc]
        exact List.take_left ..
      · rw [List.append_assoc]
        rw [List.getElem?_append_right (le_refl lines.length)]
        simp

/-- C6 witness: minimum marking with the maximum marking off leaves the
two concrete curves unchanged and appends the minimum marker series right
after them. -/
theorem markExtremum_first_extrema_witness :
    (markExtremum CheckState.halfChecked CheckState.unchecked [curveA, curveB]).take
        ([curveA, curveB] : List Line).length = [curveA, curveB] ∧
    (markExtremum CheckState.halfChecked CheckState.unchecked
        [curveA, curveB])[([curveA, curveB] : List Line).length]?
      = some (extremaSeries 0 [curveA, curveB]) :=
  markExtremum_first_extrema.2.2.2.2.1 CheckState.halfChecked CheckState.unchecked
    [curveA, curveB] (by decide)

/-- C10: the calculated-point invariant — every line but the last is free
of `gid='calc'`, so at most one `calc` line exists and it is last — is
preserved by `markCalculation` (whose removal logic inspects only the last
line), holds after every `plot_post` render cycle, and `markExtremum`
keeps a line set free of `calc` lines free of them. -/
theorem calc_marker_last_line :
    (∀ (mark : CheckState) (calcPoint : List (String × Qty) × Qty) (plotX : String)
       (legendKeys : List String) (lines : List Line) (overlay : Option (ℚ × ℚ)),
       calcInv lines = true →
       calcInv (markCalculation mark calcPoint plotX legendKeys lines overlay).1 = true) ∧
    (∀ (mn mx : CheckState) (lines : List Line),
       lines.all (fun l => !(l.gid == some "calc")) = true →
       (markExtremum mn mx lines).all (fun l => !(l.gid == some "calc")) = true) ∧
    (∀ (pp : PostParams) (st : Sys), calcInv (plot_post pp st).lines = true) := by
  refine ⟨markCalculation_calcInv, markExtremum_no_calc, ?_⟩
  intro pp st
  rcases hpc : plotCurves pp.legendKeys st.plots [] with ⟨pl, err⟩
  have hplAll : pl.all (fun l => !(l.gid == some "calc")) = true := by
    have hall := plotCurves_all pp.legendKeys (fun l => !(l.gid == some "calc"))
      (fun p l h => by simp [ax_plot_curve_gid pp.legendKeys p l h]) st.plots [] rfl
    rw [hpc] at hall
    exact hall
  cases err with
  | some e =>
      simp only [plot_post, hpc]
      exact all_dropLast _ _ hplAll
  | none =>
      simp only [plot_post, hpc]
      exact markCalculation_calcInv pp.ckCalc pp.calcPoint pp.plotX pp.legendKeys
        (markExtremum pp.ckMin pp.ckMax pl) st.overlay
        (all_dropLast _ _ (markExtremum_no_calc pp.ckMin pp.ckMax pl hplAll))

/-- C10 witness: the invariant is preserved when marking the calculated
point on axes holding one curve line. -/
theorem calc_marker_last_line_witness :
    calcInv (markCalculation CheckState.checked calcPoint0 "x" [] [lineOld] none).1 = true :=
  calc_marker_last_line.1 CheckState.checked calcPoint0 "x" [] [lineOld] none (by decide)

/-- C3: evaluation at the failing configuration.  With one relevant
non-axis input holding a single distinct value and no varying input,
`plot_pre` raises `ValueError: min() arg is an empty sequence` — the plot
request errors out instead of producing one curve as specified; when
families of lengths 3 and 2 vary, the curve count is their minimum, 2. -/
theorem plot_pre_no_varying_input_raises :
    plot_pre inp3a [] = .error "ValueError: min() arg is an empty sequence" ∧
    (plot_pre inp3b []).map List.length = .ok 2 := by
  constructor <;> with_unfolding_all rfl

/-- C5 (amended): when drawing some curve raises, `plot_post` aborts the
render cycle after the axes were already cleared: the canvas is left with
exactly the curves drawn before the failure (not the pre-render content),
the error is reported once, the busy indicator is cleared, and the cache
and overlay are untouched. -/
theorem plot_post_error (pp : PostParams) (st : Sys) (pl : List Line) (e : String)
    (h : plotCurves pp.legendKeys st.plots [] = (pl, some e)) :
    plot_post pp st
      = { st with
          lines := pl
          reported := st.reported ++ ["Fehler in Modellrückgabe: " ++ e]
          busy := false } := by
  simp only [plot_post, h]

/-- C5 witness: the amended statement at a concrete bad slot. -/
theorem plot_post_error_witness :
    plot_post pp5 sys5
      = { sys5 with
          lines := []
          reported := sys5.reported
            ++ ["Fehler in Modellrückgabe: ValueError: x and y must have same first dimension"]
          busy := false } :=
  plot_post_error pp5 sys5 [] "ValueError: x and y must have same first dimension"
    (by with_unfolding_all decide)

/-- C5 counterexample: with one previously rendered curve on the canvas
and a slot whose result length mismatches its samples, the render cycle
aborts with the error surfaced and the busy indicator cleared, but the
canvas is NOT left in its pre-render state: the old curve is gone. -/
theorem plot_post_error_cx :
    (plot_post pp5 sys5).lines ≠ sys5.lines ∧
    (plot_post pp5 sys5).lines = [] ∧
    (plot_post pp5 sys5).busy = false ∧
    (plot_post pp5 sys5).reported
      = ["Fehler in Modellrückgabe: ValueError: x and y must have same first dimension"] := by
  refine ⟨by with_unfolding_all decide, ?_, ?_, ?_⟩ <;> with_unfolding_all rfl

/-- C4 (amended): when the model raises for some slot of a dispatched
batch, every slot that already had a result keeps it for the next attempt,
but the failure is not reported and the busy indicator is NOT cleared: the
exception escapes `CalcWorker.run`, the `completed` signal is never
emitted and `plot_post` never runs. -/
theorem plot_worker_error (model : CalcModel) (inp : PreInput)
    (m₁ m₂ m₃ : CheckState) (cp : List (String × Qty) × Qty) (st : Sys)
    (ps ps₂ : List (Option PlotData)) (c : Nat) (e : String)
    (hpre : plot_pre inp st.plots = .ok ps)
    (hw : workerRun model ps = (ps₂, c, some e)) :
    (plot model inp m₁ m₂ m₃ cp st).busy = true ∧
    (plot model inp m₁ m₂ m₃ cp st).reported = st.reported ∧
    (plot model inp m₁ m₂ m₃ cp st).lines = st.lines ∧
    (plot model inp m₁ m₂ m₃ cp st).plots = ps₂ ∧
    (∀ (i : Nat) (p : PlotData), ps[i]? = some (some p) → p.result.isSome = true →
       ps₂[i]? = some (some p)) := by
  have hst : plot model inp m₁ m₂ m₃ cp st = { st with busy := true, plots := ps₂ } := by
    simp only [plot, hpre, hw]
  exact ⟨by rw [hst], by rw [hst], by rw [hst], by rw [hst],
    workerRun_keepsFilled model ps ps₂ c (some e) hw⟩

/-- C4 witness: the amended statement at a concrete raising model. -/
theorem plot_worker_error_witness :
    (plot badModel inpW CheckState.unchecked CheckState.unchecked CheckState.unchecked
        calcPoint0 sys0).busy = true ∧
    (plot badModel inpW CheckState.unchecked CheckState.unchecked CheckState.unchecked
        calcPoint0 sys0).reported = sys0.reported ∧
    (plot badModel inpW CheckState.unchecked CheckState.unchecked CheckState.unchecked
        calcPoint0 sys0).lines = sys0.lines ∧
    (plot badModel inpW CheckState.unchecked CheckState.unchecked CheckState.unchecked
        calcPoint0 sys0).plots = [some ⟨xW, [], [("output", "y")], none⟩] ∧
    (∀ (i : Nat) (p : PlotData),
       ([some ⟨xW, [], [("output", "y")], none⟩] : List (Option PlotData))[i]?
           = some (some p) →
       p.result.isSome = true →
       ([some ⟨xW, [], [("output", "y")], none⟩] : List (Option PlotData))[i]?
           = some (some p)) :=
  plot_worker_error badModel inpW CheckState.unchecked CheckState.unchecked
    CheckState.unchecked calcPoint0 sys0 [some ⟨xW, [], [("output", "y")], none⟩]
    [some ⟨xW, [], [("output", "y")], none⟩] 1 "boom"
    (by with_unfolding_all rfl) (by with_unfolding_all rfl)

/-- C4 counterexample: a batch whose model raises leaves the busy
indicator set and reports nothing, contrary to the claim that the failure
is reported once and the busy indicator cleared. -/
theorem plot_worker_error_cx :
    (plot badModel inpW CheckState.unchecked CheckState.unchecked CheckState.unchecked
        calcPoint0 sys0).busy = true ∧
    (plot badModel inpW CheckState.unchecked CheckState.unchecked CheckState.unchecked
        calcPoint0 sys0).reported = [] := by
  constructor <;> with_unfolding_all rfl

theorem plot_pre_ok (inp : PreInput) (x : QArr) (n : Nat)
    (hx : preX inp = .ok x) (hn : preCount (preFamily inp) = .ok n)
    (hfam : (preFamily inp).all (fun p => !p.2.isEmpty) = true)
    (plots : List (Option PlotData)) :
    plot_pre inp plots
      = .ok (updateSlots x (preFamily inp) inp.opt 0 (resizeSlots plots n)) := by
  unfold plot_pre
  rw [hx, hn]
  show (if (preFamily inp).all (fun p => !p.2.isEmpty) then _ else _ : Except String _) = _
  rw [hfam]
  simp

/-- C1: slots whose (sample array, per-curve parameters, options) triple is
value-wise equal to the candidate triple are kept as the very same slot
(result included); on any value difference the slot is replaced by a fresh
entry with an empty result.  Consequently a full batch fills exactly the
fresh slots, and re-invoking plot with the identical snapshot keeps every
slot and triggers zero model evaluations. -/
theorem plot_pre_cache_reuse (inp : PreInput) (plots : List (Option PlotData))
    (x : QArr) (n : Nat)
    (f : QArr → List (String × Qty) → List (String × String) → QArr)
    (hx : preX inp = .ok x) (hn : preCount (preFamily inp) = .ok n)
    (hfam : (preFamily inp).all (fun p => !p.2.isEmpty) = true) :
    plot_pre inp plots
        = .ok (updateSlots x (preFamily inp) inp.opt 0 (resizeSlots plots n)) ∧
    (∀ (i : Nat) (p : Option PlotData), (resizeSlots plots n)[i]? = some p →
       (tripleSame p x (qtyAt (preFamily inp) i) inp.opt = true →
          (updateSlots x (preFamily inp) inp.opt 0 (resizeSlots plots n))[i]? = some p) ∧
       (tripleSame p x (qtyAt (preFamily inp) i) inp.opt = false →
          (updateSlots x (preFamily inp) inp.opt 0 (resizeSlots plots n))[i]?
            = some (some ⟨x, qtyAt (preFamily inp) i, inp.opt, none⟩))) ∧
    (∀ (ps₁ ps₂ : List (Option PlotData)) (c : Nat),
       plot_pre inp plots = .ok ps₁ →
       workerRun (totalModel f) ps₁ = (ps₂, c, none) →
       plot_pre inp ps₂ = .ok ps₂ ∧ workerRun (totalModel f) ps₂ = (ps₂, 0, none)) := by
  refine ⟨plot_pre_ok inp x n hx hn hfam plots, ?_, ?_⟩
  · intro i p hp
    constructor
    · intro ht
      rw [updateSlots_getElem?, hp]
      simp only [Nat.zero_add, Option.map_some']
      simp [slotStep, ht]
    · intro hf
      rw [updateSlots_getElem?, hp]
      simp only [Nat.zero_add, Option.map_some']
      simp [slotStep, hf]
  · intro ps₁ ps₂ c hp1 hw
    rw [plot_pre_ok inp x n hx hn hfam plots] at hp1
    cases hp1
    have hAllSome : (updateSlots x (preFamily inp) inp.opt 0 (resizeSlots plots n)).all
        Option.isSome = true :=
      updateSlots_allSome x (preFamily inp) inp.opt (resizeSlots plots n) 0
    have htot := workerRun_total f
      (updateSlots x (preFamily inp) inp.opt 0 (resizeSlots plots n)) hAllSome
    rw [htot] at hw
    have hps2 : ps₂
        = fillAll f (updateSlots x (preFamily inp) inp.opt 0 (resizeSlots plots n)) := by
      have := congrArg (fun q => q.1) hw
      simpa using this.symm
    subst hps2
    have hlen : (fillAll f (updateSlots x (preFamily inp) inp.opt 0
        (resizeSlots plots n))).length = n := by
      rw [fillAll_length, updateSlots_length, resizeSlots_length]
    constructor
    · rw [plot_pre_ok inp x n hx hn hfam]
      rw [resizeSlots_self _ _ hlen]
      have hid : updateSlots x (preFamily inp) inp.opt 0
          (fillAll f (updateSlots x (preFamily inp) inp.opt 0 (resizeSlots plots n)))
          = fillAll f (updateSlots x (preFamily inp) inp.opt 0 (resizeSlots plots n)) := by
        apply updateSlots_id
        intro i p hp
        rw [fillAll_getElem?] at hp
        obtain ⟨p₀, hp₀, hfill⟩ := Option.map_eq_some'.mp hp
        rw [updateSlots_getElem?] at hp₀
        obtain ⟨p₁, hp₁, hstep⟩ := Option.map_eq_some'.mp hp₀
        rw [← hfill, tripleSame_fillSlot, ← hstep]
        simpa using tripleSame_slotStep x (preFamily inp) inp.opt i p₁
      rw [hid]
    · exact workerRun_skip (totalModel f) _
        (fillAll_filled f _ hAllSome)

/-- C1 witness: re-plotting the single-curve page `inpW` with an unchanged
snapshot after a completed batch keeps the slot list and performs zero
model evaluations. -/
theorem plot_pre_cache_reuse_witness :
    plot_pre inpW [some ⟨xW, [], [("output", "y")], some xW⟩]
        = .ok [some ⟨xW, [], [("output", "y")], some xW⟩] ∧
    workerRun (totalModel fW) [some ⟨xW, [], [("output", "y")], some xW⟩]
        = ([some ⟨xW, [], [("output", "y")], some xW⟩], 0, none) :=
  (plot_pre_cache_reuse inpW [] xW 1 fW (by with_unfolding_all rfl)
      (by with_unfolding_all rfl) (by with_unfolding_all rfl)).2.2
    [some ⟨xW, [], [("output", "y")], none⟩]
    [some ⟨xW, [], [("output", "y")], some xW⟩] 1
    (by with_unfolding_all rfl) (by with_unfolding_all rfl)
